import Mathlib

/-!
Verification of the natural-language specification of the
Amazon-Product-Scraper repository (two Python scripts:
`helper/proxy_tester.py` and `main.py`) against a shallow embedding of
their code in Lean.

The embedding models Python strings by Lean `String` and re-implements the
Python string primitives the scripts use (`str.strip`, `str.startswith`,
`str.split`) as executable functions over the underlying character list,
so that every definition evaluates by kernel reduction.
-/

/-! ## Python string primitives -/

/-- The whitespace characters recognised by Python's `str.strip()` and
`str.split()` (space, tab, newline, carriage return, vertical tab, form feed). -/
def isSpaceChar (ch : Char) : Bool :=
  ch == ' ' || ch == '\t' || ch == '\n' || ch == '\r' || ch == '\x0b' || ch == '\x0c'

/-- Remove leading and trailing whitespace from a character list. -/
def stripChars (cs : List Char) : List Char :=
  ((cs.dropWhile isSpaceChar).reverse.dropWhile isSpaceChar).reverse

/-- Python `s.strip()`. -/
def pyStrip (s : String) : String := String.mk (stripChars s.data)

/-- Python `s.startswith(pre)`. -/
def pyStartswith (s pre : String) : Bool := pre.data.isPrefixOf s.data

/-- Helper for Python `s.split()`: split a character list on runs of
whitespace, discarding empty pieces; `acc` holds the (reversed) current token. -/
def splitWsAux : List Char → List Char → List (List Char)
  | [], acc => if acc.isEmpty then [] else [acc.reverse]
  | ch :: rest, acc =>
    if isSpaceChar ch then
      if acc.isEmpty then splitWsAux rest [] else acc.reverse :: splitWsAux rest []
    else splitWsAux rest (ch :: acc)

/-- Python `s.split()` (split on whitespace, no empty tokens). -/
def pySplitWs (s : String) : List String := (splitWsAux s.data []).map String.mk

/-- Python `proxy.split()[0]`: the first whitespace-separated token.
On a blank string Python would raise `IndexError`; the scripts only apply
this to stripped non-blank strings, for which the token exists, so the
fallback `""` is never exercised on the code's own inputs. -/
def firstToken (s : String) : String :=
  match pySplitWs s with
  | [] => ""
  | t :: _ => t

/-! ## ProxyTester (`helper/proxy_tester.py`)

The proxy file is modelled by its list of lines, exactly what
`read_text().splitlines()` yields.  All three file-rewriting methods write
`'\n'.join(new_lines) + '\n'`; reading that text back with `splitlines()`
returns `new_lines` itself unless `new_lines` is empty, in which case the
stored text is `"\n"` and reads back as the single blank line `[""]`.
`write_then_read` makes that round trip explicit. -/

/-- Contents seen by the next `read_text().splitlines()` after
`write_text('\n'.join(new_lines) + '\n')`. -/
def write_then_read (new_lines : List String) : List String :=
  if new_lines = [] then [""] else new_lines

/-- `ProxyTester.load_proxies` applied to the lines of an existing file:
`[line.strip() for line in ... .splitlines() if line.strip() and not line.startswith('#')]`. -/
def load_lines (lines : List String) : List String :=
  (lines.filter (fun line => decide (pyStrip line ≠ "") && !(pyStartswith line "#"))).map pyStrip

/-- `ProxyTester.load_proxies`: `none` models a missing file
(`if not self.proxy_file.exists(): return []`). -/
def load_proxies : Option (List String) → List String
  | none => []
  | some lines => load_lines lines

/-- The `new_lines` computed by `ProxyTester.update_file_remove_proxy`:
`[line for line in lines if line.strip() != proxy and not line.strip().startswith(proxy.split()[0])]`. -/
def remove_proxy_lines (proxy : String) (lines : List String) : List String :=
  lines.filter (fun line =>
    decide (pyStrip line ≠ proxy) && !(pyStartswith (pyStrip line) (firstToken proxy)))

/-- The `new_lines` computed by `ProxyTester.update_file_mark_good`:
drop every line whose stripped form starts with `proxy.split()[0]`, then
append the proxy itself (`new_lines.append(f"{proxy}")`). -/
def mark_good_lines (proxy : String) (lines : List String) : List String :=
  (lines.filter (fun line => !(pyStartswith (pyStrip line) (firstToken proxy)))) ++ [proxy]

/-- `ProxyTester.update_file_remove_proxy`: file lines after the method
rewrites the file. -/
def update_file_remove_proxy (proxy : String) (lines : List String) : List String :=
  write_then_read (remove_proxy_lines proxy lines)

/-- `ProxyTester.update_file_mark_good`: file lines after the method
rewrites the file. -/
def update_file_mark_good (proxy : String) (lines : List String) : List String :=
  write_then_read (mark_good_lines proxy lines)

/-- `ProxyTester.test_proxy` for a single proxy, given the outcome of the
browser connectivity test (`true` = the page load through the proxy
succeeded).  It returns the coroutine's result (`proxy` on success, `None`
on failure) together with the file contents it leaves behind; the
`except` branch downgrades every failure to a removal. -/
def test_proxy (outcome : Bool) (proxy : String) (lines : List String) :
    Option String × List String :=
  if outcome then (some proxy, update_file_mark_good proxy lines)
  else (none, update_file_remove_proxy proxy lines)

/-- The sequence of file rewrites performed by the `test_proxy` tasks of
one `test_all_proxies` run.  Each task holds the file lock for its whole
read-modify-write cycle, so the rewrites are serialised in some order
`ord` (the completion order of the concurrent tasks, which the code does
not constrain: `asyncio.gather` only joins them). -/
def runOutcomes (c : String → Bool) : List String → List String → List String
  | lines, [] => lines
  | lines, p :: ps => runOutcomes c (test_proxy (c p) p lines).2 ps

/-- `ProxyTester.test_all_proxies`: load the proxies; if none are found,
return without touching the file; otherwise run one `test_proxy` task per
proxy (their file rewrites serialised in completion order `ord`, a
permutation of the loaded proxies) and leave the rewritten file behind.
`c` gives each proxy's connectivity-test outcome. -/
def test_all_proxies (c : String → Bool) (ord : List String) :
    Option (List String) → Option (List String)
  | none => none
  | some lines =>
    if load_lines lines = [] then some lines
    else some (runOutcomes c lines ord)

/-- An entry as the spec's data model intends it: a stripped, non-blank,
non-comment `host:port` line consisting of a single token. -/
def cleanEntry (s : String) : Prop :=
  pyStrip s = s ∧ s ≠ "" ∧ pyStartswith s "#" = false ∧ firstToken s = s

instance (s : String) : Decidable (cleanEntry s) := by
  unfold cleanEntry; infer_instance

/-- A proxy file consisting of exactly its entries: every line is a clean
entry, no entry repeats, and no entry is a (string) prefix of a different
one. -/
def GoodLines (l : List String) : Prop :=
  l.Nodup ∧ (∀ x ∈ l, cleanEntry x) ∧
    ∀ x ∈ l, ∀ y ∈ l, x ≠ y → pyStartswith x y = false

instance (l : List String) : Decidable (GoodLines l) := by
  unfold GoodLines; infer_instance

/-! ## AmazonScraper (`main.py`) -/

/-- An element located on a page: its inner text and its `src` attribute
(`None` when the attribute is absent). -/
structure Elem where
  innerText : String
  srcAttr : Option String
deriving DecidableEq

/-- A product page as the scraper sees it: each XPath locator resolves to
its list of matching elements (`locator.count()` / `locator.first`). -/
def Page : Type := String → List Elem

/-- `CSV_COLUMNS` of `main.py`. -/
def CSV_COLUMNS : List String :=
  ["Image", "Title", "Avg Review", "Review Count", "Has Prime",
   "Price", "Delivery", "Availability", "Specifications", "URL"]

/-- The `fields` table of `AmazonScraper.scrape_product_data`: each scraped
column with its XPath fallbacks, in insertion order. -/
def fields : List (String × List String) :=
  [("Image", ["//*[@id=\"landingImage\"]"]),
   ("Title", ["//*[@id=\"productTitle\"]"]),
   ("Avg Review", ["//*[@id=\"acrPopover\"]/span/a/span"]),
   ("Review Count", ["//*[@id=\"acrCustomerReviewText\"]"]),
   ("Has Prime", ["//*[@id=\"abb-message\"]"]),
   ("Price", ["//*[@id=\"corePriceDisplay_desktop_feature_div\"]/div[1]/span[2]",
     "//*[@id=\"corePriceDisplay_desktop_feature_div\"]/div[1]/span[3]/span[2]"]),
   ("Delivery",
     ["//*[@id=\"mir-layout-DELIVERY_BLOCK-slot-PRIMARY_DELIVERY_MESSAGE_LARGE\"]/span"]),
   ("Availability", ["//*[@id=\"availability\"]"]),
   ("Specifications", ["//*[@id=\"productDetails_feature_div\"]"])]

/-- The inner `for xp in xpaths` loop of `scrape_product_data` for one
field: take the first XPath that matches an element and break; the
`Price` field skips matches whose stripped text does not start with `€`
(`continue`); the `Image` field reads the `src` attribute; every other
field reads the stripped inner text.  `none` models `np.nan`. -/
def extractField (page : Page) (key : String) : List String → Option String
  | [] => none
  | xp :: rest =>
    match page xp with
    | [] => extractField page key rest
    | e :: _ =>
      if key = "Price" then
        let text := pyStrip e.innerText
        if pyStartswith text "€" then some text else extractField page key rest
      else if key = "Image" then e.srcAttr
      else some (pyStrip e.innerText)

/-- The final value of `data[col]` in `scrape_product_data`: every column
starts as `np.nan`, `data["URL"]` is set to the visited URL, and the field
loop then overwrites each scraped column (the nine field keys together
with `URL` are exactly `CSV_COLUMNS`). -/
def rowCell (page : Page) (url : String) (col : String) : Option String :=
  match fields.find? (fun kv => kv.1 == col) with
  | some kv => extractField page kv.1 kv.2
  | none => if col = "URL" then some url else none

/-- The row appended to the CSV by `scrape_product_data`
(`pd.DataFrame([data])`, columns in `CSV_COLUMNS` order). -/
def scrapeRow (page : Page) (url : String) : List (Option String) :=
  CSV_COLUMNS.map (rowCell page url)

/-- The product CSV file: its header row and its data rows. -/
structure CsvFile where
  header : List String
  rows : List (List (Option String))
deriving DecidableEq

/-- The module-level initialisation of `main.py`: if the CSV file does not
exist, create it with the `CSV_COLUMNS` header and no data rows.  (The
code passes `columns=[CSV_COLUMNS]`; pandas treats the wrapped list as a
single-level column index and still writes exactly these ten names as the
header row.) -/
def ensure_csv : Option CsvFile → CsvFile
  | none => { header := CSV_COLUMNS, rows := [] }
  | some f => f

/-- The append at the end of `AmazonScraper.scrape_product_data`:
`df_row.to_csv(CSV_FILE, mode='a', header=False, index=False)` — exactly
one data row is added, and no header row. -/
def scrape_product_data (page : Page) (url : String) (f : CsvFile) : CsvFile :=
  { f with rows := f.rows ++ [scrapeRow page url] }

/-! ## Error-flow models (claim C5)

The scripts' failure handling, with the possibility of failure made
explicit as `Except`.  Every browser operation either has its failure
downgraded on the spot (`test_proxy` marks the proxy bad,
`scrape_product_data` leaves the field empty, `accept_cookies` and
`go_to_next_search_page` skip), or propagates untouched — never retried —
to the `try`/`except`/`finally` at the top of `__main__`, which absorbs
it. -/

/-- A page whose locator lookups may raise (timeout, network failure,
markup mismatch — the code does not distinguish them). -/
def PageE : Type := String → Except String (List Elem)

/-- The body of the per-field `try:` block of `scrape_product_data`, with
failure propagation explicit. -/
def extractFieldE (page : PageE) (key : String) : List String → Except String (Option String)
  | [] => .ok none
  | xp :: rest =>
    match page xp with
    | .error msg => .error msg
    | .ok [] => extractFieldE page key rest
    | .ok (e :: _) =>
      if key = "Price" then
        let text := pyStrip e.innerText
        if pyStartswith text "€" then .ok (some text) else extractFieldE page key rest
      else if key = "Image" then .ok e.srcAttr
      else .ok (some (pyStrip e.innerText))

/-- One whole per-field step including its `except: data[key] = np.nan`
catch-all: any failure is downgraded to an absent cell, and no exception
escapes the row-extraction step. -/
def fieldValueSafe (page : PageE) (key : String) (xps : List String) : Option String :=
  match extractFieldE page key xps with
  | .error _ => none
  | .ok v => v

/-- `ProxyTester.test_proxy` with the browser test's possible failure made
explicit: the `try`/`except` downgrades every failure (launch, navigation,
timeout alike) to removing the proxy and returning `None`; nothing is
retried and nothing propagates. -/
def test_proxy_exc (o : Except String Unit) (proxy : String) (lines : List String) :
    Option String × List String :=
  match o with
  | .ok _ => test_proxy true proxy lines
  | .error _ => test_proxy false proxy lines

/-- The top-level `try`/`except`/`finally` of `main.py`'s `__main__`
block: any failure that reaches it is logged and absorbed, and the script
completes. -/
def main_top (body : Except String Unit) : Except String Unit :=
  match body with
  | .ok _ => .ok ()
  | .error _ => .ok ()

/-! ## Witness data for the scraper claims -/

/-- A concrete product page on which every scraped field is present.  The
first `Price` XPath resolves to the `-22%` discount badge, exercising the
`continue`-to-fallback branch. -/
def pageFull : Page := fun xp =>
  if xp = "//*[@id=\"landingImage\"]" then [⟨"", some "https://img.example/1.jpg"⟩]
  else if xp = "//*[@id=\"productTitle\"]" then [⟨"  Example Product  ", none⟩]
  else if xp = "//*[@id=\"acrPopover\"]/span/a/span" then [⟨"4.5", none⟩]
  else if xp = "//*[@id=\"acrCustomerReviewText\"]" then [⟨"1,234 ratings", none⟩]
  else if xp = "//*[@id=\"abb-message\"]" then [⟨"Prime", none⟩]
  else if xp = "//*[@id=\"corePriceDisplay_desktop_feature_div\"]/div[1]/span[2]" then
    [⟨"-22%", none⟩]
  else if xp = "//*[@id=\"corePriceDisplay_desktop_feature_div\"]/div[1]/span[3]/span[2]" then
    [⟨"€19,99", none⟩]
  else if xp = "//*[@id=\"mir-layout-DELIVERY_BLOCK-slot-PRIMARY_DELIVERY_MESSAGE_LARGE\"]/span" then
    [⟨"Tomorrow", none⟩]
  else if xp = "//*[@id=\"availability\"]" then [⟨"In stock", none⟩]
  else if xp = "//*[@id=\"productDetails_feature_div\"]" then [⟨"Specs", none⟩]
  else []

/-- A product page on which no locator matches anything. -/
def pageBlank : Page := fun _ => []

/-- A page on which every locator lookup raises. -/
def pageErr : PageE := fun _ => .error "timeout"

/-! ## Interleaving model of `test_all_proxies` (claims C8 and C9)

`test_all_proxies` spawns one `test_proxy` coroutine per proxy and joins
them with `asyncio.gather`.  Each coroutine executes, in order:
enter `async with semaphore` — run the browser connectivity test —
enter `async with self.lock` — read the file — write the file —
leave the lock — leave the semaphore.  The transition system below lets
the scheduler interleave the coroutines arbitrarily (completion order is
unconstrained); a step happens only when its guard — the semaphore
counter, the lock, the coroutine's program counter — allows it. -/

/-- Program counter of one `test_proxy` coroutine. -/
inductive PC
  | start      -- not yet entered `async with semaphore`
  | testing    -- holds a semaphore slot, browser test in progress
  | acquiring  -- test finished, waiting on `self.lock`
  | reading    -- holds the lock, about to `read_text().splitlines()`
  | writing    -- read done, new lines computed, about to `write_text`
  | releasing  -- write done (or the inner `except` fired), leaving the lock
  | exiting    -- lock released, about to leave the semaphore block
  | done       -- coroutine finished
deriving DecidableEq

/-- Shared state of one `test_all_proxies` run: the proxy file, the lock
owner, the semaphore counter, and each coroutine's program counter and the
new file contents it computed while holding the lock. -/
structure TState where
  file : List String
  lock : Option Nat
  sem : Nat
  pcs : List PC
  regs : List (List String)
deriving DecidableEq

/-- Initial state: file as on disk, lock free, semaphore at
`max_concurrent`, one coroutine per proxy, none started. -/
def initState (f0 : List String) (n maxConc : Nat) : TState :=
  { file := f0, lock := none, sem := maxConc,
    pcs := List.replicate n PC.start, regs := List.replicate n [] }

/-- One scheduler step of the run.  `proxies` gives coroutine `i`'s proxy
string and `outcome i` its browser test's result. -/
inductive Step (proxies : List String) (outcome : Nat → Bool) : TState → TState → Prop
  | acqSem (s : TState) (i : Nat) (h : i < s.pcs.length)
      (hpc : s.pcs.get ⟨i, h⟩ = PC.start) (hsem : 0 < s.sem) :
      Step proxies outcome s
        { s with sem := s.sem - 1, pcs := s.pcs.set i PC.testing }
  | finishTest (s : TState) (i : Nat) (h : i < s.pcs.length)
      (hpc : s.pcs.get ⟨i, h⟩ = PC.testing) :
      Step proxies outcome s { s with pcs := s.pcs.set i PC.acquiring }
  | acqLock (s : TState) (i : Nat) (h : i < s.pcs.length)
      (hpc : s.pcs.get ⟨i, h⟩ = PC.acquiring) (hlock : s.lock = none) :
      Step proxies outcome s
        { s with lock := some i, pcs := s.pcs.set i PC.reading }
  | readFile (s : TState) (i : Nat) (h : i < s.pcs.length)
      (hpc : s.pcs.get ⟨i, h⟩ = PC.reading) :
      Step proxies outcome s
        { s with
          regs := s.regs.set i
            (if outcome i then mark_good_lines (proxies.getD i "") s.file
             else remove_proxy_lines (proxies.getD i "") s.file),
          pcs := s.pcs.set i PC.writing }
  | writeFile (s : TState) (i : Nat) (h : i < s.pcs.length)
      (hpc : s.pcs.get ⟨i, h⟩ = PC.writing) :
      Step proxies outcome s
        { s with
          file := write_then_read (s.regs.getD i []),
          pcs := s.pcs.set i PC.releasing }
  | updateError (s : TState) (i : Nat) (h : i < s.pcs.length)
      (hpc : s.pcs.get ⟨i, h⟩ = PC.reading ∨ s.pcs.get ⟨i, h⟩ = PC.writing) :
      Step proxies outcome s { s with pcs := s.pcs.set i PC.releasing }
  | relLock (s : TState) (i : Nat) (h : i < s.pcs.length)
      (hpc : s.pcs.get ⟨i, h⟩ = PC.releasing) :
      Step proxies outcome s
        { s with lock := none, pcs := s.pcs.set i PC.exiting }
  | relSem (s : TState) (i : Nat) (h : i < s.pcs.length)
      (hpc : s.pcs.get ⟨i, h⟩ = PC.exiting) :
      Step proxies outcome s
        { s with sem := s.sem + 1, pcs := s.pcs.set i PC.done }

/-- States reachable in a run. -/
inductive Reach (proxies : List String) (outcome : Nat → Bool)
    (f0 : List String) (n maxConc : Nat) : TState → Prop
  | base : Reach proxies outcome f0 n maxConc (initState f0 n maxConc)
  | step {s t : TState} : Reach proxies outcome f0 n maxConc s →
      Step proxies outcome s t → Reach proxies outcome f0 n maxConc t

/-- A coroutine is inside its read-modify-write cycle on the proxy file. -/
def inCrit : PC → Bool
  | PC.reading => true
  | PC.writing => true
  | PC.releasing => true
  | _ => false

/-- A coroutine holds a semaphore slot (its proxy test is in flight). -/
def holdsSem : PC → Bool
  | PC.start => false
  | PC.done => false
  | _ => true

/-! ### Lemmas about the proxy-file operations -/

theorem isPrefixOf_self : ∀ (l : List Char), l.isPrefixOf l = true
  | [] => rfl
  | c :: cs => by simp [List.isPrefixOf, isPrefixOf_self cs]

theorem pyStartswith_self (s : String) : pyStartswith s s = true :=
  isPrefixOf_self s.data

/-- On a file whose lines are all clean entries, `load_proxies` returns the
lines themselves. -/
theorem load_lines_of_clean (l : List String) (hcl : ∀ x ∈ l, cleanEntry x) :
    load_lines l = l := by
  unfold load_lines
  have hfilter : l.filter
      (fun line => decide (pyStrip line ≠ "") && !(pyStartswith line "#")) = l := by
    refine List.filter_eq_self.mpr ?_
    intro x hx
    obtain ⟨hstrip, hne, hhash, -⟩ := hcl x hx
    simp [hstrip, hne, hhash]
  rw [hfilter]
  have hmap : ∀ x ∈ l, pyStrip x = x := fun x hx => (hcl x hx).1
  simp only [List.map_congr_left hmap]
  exact List.map_id l

theorem load_lines_blank : load_lines [""] = [] := by decide

/-- With clean, pairwise-non-prefix lines, the removal filter of
`update_file_remove_proxy` removes exactly the lines equal to `proxy`. -/
theorem remove_lines_eq (p : String) (l : List String)
    (hp : cleanEntry p)
    (hcl : ∀ x ∈ l, cleanEntry x)
    (hpf : ∀ x ∈ l, x ≠ p → pyStartswith x p = false) :
    remove_proxy_lines p l = l.filter (fun x => x != p) := by
  unfold remove_proxy_lines
  refine List.filter_congr ?_
  intro x hx
  obtain ⟨hstrip, -, -, -⟩ := hcl x hx
  obtain ⟨-, -, -, htok⟩ := hp
  rw [hstrip, htok]
  by_cases hxp : x = p
  · subst hxp; simp [pyStartswith_self]
  · simp [hxp, hpf x hx hxp]

/-- With clean, pairwise-non-prefix lines, the filter of
`update_file_mark_good` also removes exactly the lines equal to `proxy`. -/
theorem mark_lines_eq (p : String) (l : List String)
    (hp : cleanEntry p)
    (hcl : ∀ x ∈ l, cleanEntry x)
    (hpf : ∀ x ∈ l, x ≠ p → pyStartswith x p = false) :
    mark_good_lines p l = l.filter (fun x => x != p) ++ [p] := by
  unfold mark_good_lines
  congr 1
  refine List.filter_congr ?_
  intro x hx
  obtain ⟨hstrip, -, -, -⟩ := hcl x hx
  obtain ⟨-, -, -, htok⟩ := hp
  rw [hstrip, htok]
  by_cases hxp : x = p
  · subst hxp; simp [pyStartswith_self]
  · simp [hxp, hpf x hx hxp]

theorem filter_ne_of_not_mem (p : String) (l : List String) (hnp : p ∉ l) :
    l.filter (fun x => x != p) = l := by
  refine List.filter_eq_self.mpr ?_
  intro x hx
  simp only [bne_iff_ne, ne_eq]
  rintro rfl
  exact hnp hx

/-- Invariant of a `test_all_proxies` run: starting from a file holding the
unprocessed entries `rem` (in file order) followed by the already-marked-good
entries `goods`, processing the remaining completion order `ord` (a
permutation of `rem`) leaves the file holding `goods` followed by the
successful entries of `ord`, in completion order. -/
theorem runOutcomes_eq (c : String → Bool) :
    ∀ (ord rem goods : List String), ord ≠ [] →
      List.Perm ord rem →
      GoodLines (rem ++ goods) →
      runOutcomes c (rem ++ goods) ord = write_then_read (goods ++ ord.filter c) := by
  intro ord
  induction ord with
  | nil => intro rem goods hne; exact absurd rfl hne
  | cons p ps ih =>
    intro rem goods _ hperm hgood
    obtain ⟨hnd, hcl, hpf⟩ := hgood
    obtain ⟨hp, hps⟩ := List.cons_perm_iff_perm_erase.mp hperm
    have hpL : p ∈ rem ++ goods := List.mem_append_left goods hp
    have hpclean : cleanEntry p := hcl p hpL
    -- the already-good entries do not mention `p`
    have hdis : p ∉ goods := by
      rcases List.nodup_append.mp hnd with ⟨-, -, hdisj⟩
      exact fun hmem => hdisj hp hmem
    -- `remove`/`mark` on the current file delete exactly the line `p`
    have hfeq : (rem ++ goods).filter (fun x => x != p) = rem.erase p ++ goods := by
      rw [List.filter_append, filter_ne_of_not_mem p goods hdis,
        ((List.nodup_append.mp hnd).1.erase_eq_filter p)]
    have hpf1 : ∀ x ∈ rem ++ goods, x ≠ p → pyStartswith x p = false :=
      fun x hx hxp => hpf x hx p hpL hxp
    -- the new file contents after processing `p`
    have hstep : (test_proxy (c p) p (rem ++ goods)).2 =
        write_then_read (rem.erase p ++ (goods ++ if c p then [p] else [])) := by
      cases hc : c p with
      | true =>
        simp only [test_proxy, hc, if_pos, update_file_mark_good,
          mark_lines_eq p _ hpclean hcl hpf1, hfeq]
        rw [List.append_assoc]
      | false =>
        simp only [test_proxy, hc, Bool.false_eq_true, if_false,
          update_file_remove_proxy, remove_lines_eq p _ hpclean hcl hpf1, hfeq,
          List.append_nil]
    -- the shrunken state is again a good file
    have hpermL : List.Perm (rem ++ goods) (p :: (rem.erase p ++ goods)) := by
      have h1 : List.Perm rem (p :: rem.erase p) := List.perm_cons_erase hp
      calc List.Perm (rem ++ goods) ((p :: rem.erase p) ++ goods) := h1.append_right goods
        _ = p :: (rem.erase p ++ goods) := rfl
    have hnd' : (p :: (rem.erase p ++ goods)).Nodup := hpermL.nodup hnd
    have hsub : ∀ x ∈ rem.erase p ++ (goods ++ if c p then [p] else []),
        x ∈ rem ++ goods := by
      intro x hx
      rcases List.mem_append.mp hx with hx1 | hx2
      · exact List.mem_append_left goods (List.mem_of_mem_erase hx1)
      · rcases List.mem_append.mp hx2 with hx3 | hx4
        · exact List.mem_append_right rem hx3
        · cases hc : c p with
          | true => simp [hc] at hx4; exact hx4 ▸ hpL
          | false => simp [hc] at hx4
    have hgood' : GoodLines (rem.erase p ++ (goods ++ if c p then [p] else [])) := by
      refine ⟨?_, fun x hx => hcl x (hsub x hx),
        fun x hx y hy hxy => hpf x (hsub x hx) y (hsub y hy) hxy⟩
      cases hc : c p with
      | true =>
        simp only [hc, if_pos]
        have hperm2 : List.Perm (p :: (rem.erase p ++ goods))
            (rem.erase p ++ (goods ++ [p])) := by
          calc List.Perm (p :: (rem.erase p ++ goods)) ((rem.erase p ++ goods) ++ [p]) :=
                (List.perm_append_singleton p (rem.erase p ++ goods)).symm
            _ = rem.erase p ++ (goods ++ [p]) := List.append_assoc _ _ _
        exact hperm2.nodup hnd'
      | false =>
        simp only [hc, Bool.false_eq_true, if_false, List.append_nil]
        exact (List.nodup_cons.mp hnd').2
    -- run the remaining steps
    cases hpsnil : ps with
    | nil =>
      subst hpsnil
      have hrE : rem.erase p = [] := hps.symm.eq_nil
      simp only [runOutcomes, hstep, hrE, List.nil_append, List.filter]
      cases hc : c p <;> simp [hc, write_then_read]
    | cons q qs =>
      have hpsne : ps ≠ [] := by rw [hpsnil]; exact List.cons_ne_nil q qs
      have hrEne : rem.erase p ≠ [] := by
        intro hE
        rw [hE] at hps
        exact hpsne hps.eq_nil
      have hcollapse : write_then_read (rem.erase p ++ (goods ++ if c p then [p] else []))
          = rem.erase p ++ (goods ++ if c p then [p] else []) := by
        unfold write_then_read
        rw [if_neg]
        intro hE
        exact hrEne (List.append_eq_nil.mp hE).1
      rw [← hpsnil] at *
      show runOutcomes c (test_proxy (c p) p (rem ++ goods)).2 ps = _
      rw [hstep, hcollapse, ih (rem.erase p) (goods ++ if c p then [p] else []) hpsne hps hgood']
      congr 1
      cases hc : c p with
      | true => simp [hc, List.filter_cons, List.append_assoc]
      | false => simp [hc, List.filter_cons]

/-- Characterisation of one whole `test_all_proxies` run on a good file:
the entries afterwards are a permutation of the entries whose connectivity
test succeeded. -/
theorem run_load_perm (c : String → Bool) (L ord : List String)
    (hgood : GoodLines L) (hord : List.Perm ord L) :
    List.Perm (load_proxies (test_all_proxies c ord (some L))) (L.filter c) := by
  obtain ⟨hnd, hcl, hpf⟩ := hgood
  by_cases hL : L = []
  · subst hL
    simp [test_all_proxies, load_lines, load_proxies]
  · have hload : load_lines L = L := load_lines_of_clean L hcl
    have hrun : test_all_proxies c ord (some L) = some (runOutcomes c L ord) := by
      simp [test_all_proxies, hload, hL]
    have hordne : ord ≠ [] := by
      intro hE
      rw [hE] at hord
      exact hL hord.symm.eq_nil
    have hro : runOutcomes c L ord = write_then_read (ord.filter c) := by
      have := runOutcomes_eq c ord L [] hordne hord
        (by rw [List.append_nil]; exact ⟨hnd, hcl, hpf⟩)
      rwa [List.append_nil, List.nil_append] at this
    have hfperm : List.Perm (ord.filter c) (L.filter c) := hord.filter c
    rw [hrun]
    show List.Perm (load_lines (runOutcomes c L ord)) (L.filter c)
    rw [hro]
    by_cases hfe : ord.filter c = []
    · rw [hfe] at hfperm ⊢
      rw [show write_then_read [] = [""] from rfl, load_lines_blank]
      rw [← hfperm.symm.eq_nil]
    · rw [show write_then_read (ord.filter c) = ord.filter c from if_neg hfe]
      have hclf : ∀ x ∈ ord.filter c, cleanEntry x := by
        intro x hx
        exact hcl x (hord.mem_iff.mp (List.mem_of_mem_filter hx))
      rw [load_lines_of_clean _ hclf]
      exact hfperm

theorem length_filter_add_not (c : String → Bool) (L : List String) :
    (L.filter c).length + (L.filter (fun p => !(c p))).length = L.length := by
  induction L with
  | nil => rfl
  | cons a l ih =>
    cases hc : c a <;> simp [List.filter_cons, hc] <;> omega

/-- On a good non-empty file, a `test_all_proxies` run leaves behind exactly
the successful entries in completion order (written back through
`'\n'.join(...) + '\n'`). -/
theorem test_all_eq (c : String → Bool) (L ord : List String)
    (hgood : GoodLines L) (hord : List.Perm ord L) (hL : L ≠ []) :
    test_all_proxies c ord (some L) = some (write_then_read (ord.filter c)) := by
  obtain ⟨hnd, hcl, hpf⟩ := hgood
  have hload : load_lines L = L := load_lines_of_clean L hcl
  have hordne : ord ≠ [] := by
    intro hE
    rw [hE] at hord
    exact hL hord.symm.eq_nil
  have hro : runOutcomes c L ord = write_then_read (ord.filter c) := by
    have := runOutcomes_eq c ord L [] hordne hord
      (by rw [List.append_nil]; exact ⟨hnd, hcl, hpf⟩)
    rwa [List.append_nil, List.nil_append] at this
  simp [test_all_proxies, hload, hL, hro]

/-! ### Claim C1 -/

/-- C1 counterexample: the claim fails as stated.  On the proxy file with
the two entries `a:10` and `a:1`, both of which pass the connectivity test
(N = 2, M = 0), the run whose file updates happen in listing order leaves
only the single entry `a:1` behind: marking `a:1` good strips every line
that *starts with* `a:1`, which also deletes the unrelated entry `a:10`. -/
theorem c1_counterexample :
    ¬ List.Perm
      (load_proxies (test_all_proxies (fun _ => true) ["a:10", "a:1"]
        (some ["a:10", "a:1"])))
      (List.filter (fun _ => true) ["a:10", "a:1"]) := by decide

/-- C1 (amended): provided the file consists of distinct clean `host:port`
entries none of which is a string prefix of another, every run of
`test_all_proxies` (whatever completion order its concurrent tasks finish
in) leaves a file whose entries are exactly the successful proxies — a
permutation of them — and hence exactly N − M entries. -/
theorem c1_amended_entries_after_run (c : String → Bool) (L ord : List String)
    (hgood : GoodLines L) (hord : List.Perm ord L) :
    List.Perm (load_proxies (test_all_proxies c ord (some L))) (L.filter c) ∧
      (load_proxies (test_all_proxies c ord (some L))).length
        = L.length - (L.filter (fun p => !(c p))).length := by
  have h := run_load_perm c L ord hgood hord
  refine ⟨h, ?_⟩
  rw [h.length_eq]
  have := length_filter_add_not c L
  omega

/-- C1 witness: a concrete good file with one passing and one failing
entry; the run keeps exactly the passing one. -/
theorem c1_amended_entries_after_run_witness :
    (GoodLines ["a:1", "b:2"] ∧ List.Perm ["b:2", "a:1"] ["a:1", "b:2"]) ∧
      List.Perm
        (load_proxies (test_all_proxies (fun s => s == "a:1") ["b:2", "a:1"]
          (some ["a:1", "b:2"])))
        (List.filter (fun s => s == "a:1") ["a:1", "b:2"]) ∧
      (load_proxies (test_all_proxies (fun s => s == "a:1") ["b:2", "a:1"]
          (some ["a:1", "b:2"]))).length
        = (["a:1", "b:2"] : List String).length
          - (List.filter (fun p => !(p == "a:1")) ["a:1", "b:2"]).length :=
  ⟨⟨by decide, by decide⟩,
    c1_amended_entries_after_run (fun s => s == "a:1") ["a:1", "b:2"] ["b:2", "a:1"]
      (by decide) (by decide)⟩

/-! ### Claim C3 -/

/-- C3 counterexample: the claim fails as stated.  Both entries of
`["a:1", "a:10"]` pass; a first run (updates in listing order) rewrites the
file to exactly those two entries, yet a second run with unchanged
connectivity, whose updates complete in the opposite order, removes `a:10`
again, because marking `a:1` good strips every line starting with `a:1`. -/
theorem c3_counterexample :
    load_proxies (test_all_proxies (fun _ => true) ["a:1", "a:10"]
        (some ["a:1", "a:10"])) = ["a:1", "a:10"] ∧
      load_proxies (test_all_proxies (fun _ => true) ["a:10", "a:1"]
        (test_all_proxies (fun _ => true) ["a:1", "a:10"]
          (some ["a:1", "a:10"]))) = ["a:1"] := by decide

/-- C3 (amended): provided the original file consists of distinct clean
entries none of which is a string prefix of another, re-running
`test_all_proxies` on the file produced by a previous run, with every
proxy's connectivity outcome unchanged, removes no further entries: the
set of entries is a fixed point (up to permutation), for every completion
order of either run. -/
theorem c3_amended_rerun_fixed_point (c : String → Bool) (L ord1 ord2 : List String)
    (hgood : GoodLines L) (h1 : List.Perm ord1 L)
    (h2 : List.Perm ord2 (load_proxies (test_all_proxies c ord1 (some L)))) :
    List.Perm
      (load_proxies (test_all_proxies c ord2 (test_all_proxies c ord1 (some L))))
      (load_proxies (test_all_proxies c ord1 (some L))) := by
  obtain ⟨hnd, hcl, hpf⟩ := hgood
  by_cases hL : L = []
  · subst hL
    have h0 : test_all_proxies c ord1 (some []) = some [] := by
      simp [test_all_proxies, load_lines]
    rw [h0]
    have h0' : test_all_proxies c ord2 (some []) = some [] := by
      simp [test_all_proxies, load_lines]
    rw [h0']
  · have hF1 : test_all_proxies c ord1 (some L) = some (write_then_read (ord1.filter c)) :=
      test_all_eq c L ord1 ⟨hnd, hcl, hpf⟩ h1 hL
    by_cases hfe : ord1.filter c = []
    · rw [hF1, hfe]
      have hblank : test_all_proxies c ord2 (some (write_then_read [])) =
          some (write_then_read []) := by
        simp [test_all_proxies, write_then_read, load_lines_blank]
      rw [hblank]
    · have hwtr : write_then_read (ord1.filter c) = ord1.filter c := if_neg hfe
      rw [hF1, hwtr]
      -- the output of the first run is itself a good file of passing entries
      have hsub1 : ∀ x ∈ ord1.filter c, x ∈ L :=
        fun x hx => h1.mem_iff.mp (List.mem_of_mem_filter hx)
      have hgood1 : GoodLines (ord1.filter c) := by
        refine ⟨((h1.symm).nodup hnd).filter c,
          fun x hx => hcl x (hsub1 x hx),
          fun x hx y hy hxy => hpf x (hsub1 x hx) y (hsub1 y hy) hxy⟩
      have h2' : List.Perm ord2 (ord1.filter c) := by
        have hld : load_proxies (test_all_proxies c ord1 (some L)) = ord1.filter c := by
          rw [hF1, hwtr]
          exact load_lines_of_clean _ (fun x hx => hcl x (hsub1 x hx))
        rwa [hld] at h2
      have hfix : (ord1.filter c).filter c = ord1.filter c := by
        refine List.filter_eq_self.mpr ?_
        intro x hx
        exact List.of_mem_filter hx
      have h := run_load_perm c (ord1.filter c) ord2 hgood1 h2'
      rw [hfix] at h
      have hld : load_proxies (some (ord1.filter c)) = ord1.filter c :=
        load_lines_of_clean _ (fun x hx => hcl x (hsub1 x hx))
      calc List.Perm (load_proxies (test_all_proxies c ord2 (some (ord1.filter c))))
            (ord1.filter c) := h
        _ = load_proxies (some (ord1.filter c)) := hld.symm

/-- C3 witness: one clean passing entry; re-running keeps it. -/
theorem c3_amended_rerun_fixed_point_witness :
    (GoodLines ["a:1"] ∧ List.Perm ["a:1"] ["a:1"] ∧
        List.Perm ["a:1"]
          (load_proxies (test_all_proxies (fun _ => true) ["a:1"] (some ["a:1"])))) ∧
      List.Perm
        (load_proxies (test_all_proxies (fun _ => true) ["a:1"]
          (test_all_proxies (fun _ => true) ["a:1"] (some ["a:1"]))))
        (load_proxies (test_all_proxies (fun _ => true) ["a:1"] (some ["a:1"]))) :=
  ⟨⟨by decide, by decide, by decide⟩,
    c3_amended_rerun_fixed_point (fun _ => true) ["a:1"] ["a:1"] ["a:1"]
      (by decide) (by decide) (by decide)⟩

/-! ### Claim C6 -/

/-- C6 counterexample: the claim fails as stated.  In the file
`["a:10", "a:1"]` both entries pass their connectivity test, yet after the
run whose updates happen in listing order the successful proxy `a:10` is no
longer present in the file: marking `a:1` good deleted it. -/
theorem c6_counterexample :
    ("a:10" ∈ (["a:10", "a:1"] : List String) ∧ (fun (_ : String) => true) "a:10" = true) ∧
      "a:10" ∉ load_proxies (test_all_proxies (fun _ => true) ["a:10", "a:1"]
        (some ["a:10", "a:1"])) := by decide

/-- C6 (amended): provided the file consists of distinct clean entries none
of which is a string prefix of another, every proxy whose connectivity test
succeeds is present in the file after the run exactly as it was read. -/
theorem c6_amended_good_proxy_kept (c : String → Bool) (L ord : List String)
    (p : String) (hgood : GoodLines L) (hord : List.Perm ord L)
    (hp : p ∈ L) (hc : c p = true) :
    p ∈ load_proxies (test_all_proxies c ord (some L)) := by
  have h := run_load_perm c L ord hgood hord
  exact h.mem_iff.mpr (List.mem_filter.mpr ⟨hp, hc⟩)

/-- C6 witness: a single passing entry stays in the file. -/
theorem c6_amended_good_proxy_kept_witness :
    (GoodLines ["a:1"] ∧ List.Perm ["a:1"] ["a:1"] ∧
        "a:1" ∈ (["a:1"] : List String) ∧ (fun (_ : String) => true) "a:1" = true) ∧
      "a:1" ∈ load_proxies (test_all_proxies (fun _ => true) ["a:1"] (some ["a:1"])) :=
  ⟨⟨by decide, by decide, by decide, by decide⟩,
    c6_amended_good_proxy_kept (fun _ => true) ["a:1"] ["a:1"] "a:1"
      (by decide) (by decide) (by decide) (by decide)⟩

/-! ### Claim C7 -/

/-- C7 counterexample: the claim fails as stated.  `load_proxies` tests
`line.startswith('#')` on the *unstripped* line, so a comment indented by
whitespace is kept: on the file with the single line `"  # comment"` the
returned list of proxy entries contains the `#`-prefixed comment. -/
theorem c7_counterexample :
    load_proxies (some ["  # comment"]) = ["# comment"] ∧
      pyStartswith "# comment" "#" = true := by decide

/-- C7 (amended): `load_proxies` returns exactly the stripped forms of the
lines that are non-blank after stripping and that do not start with `#`
*before* stripping.  Blank lines never appear; a `#`-comment line is
ignored only when its `#` is the very first character of the raw line (an
indented comment is returned as an entry). -/
theorem c7_amended_load_characterisation (lines : List String) :
    (∀ e ∈ load_proxies (some lines), e ≠ "" ∧
        ∃ l ∈ lines, pyStrip l = e ∧ pyStartswith l "#" = false) ∧
    (∀ l ∈ lines, pyStrip l ≠ "" → pyStartswith l "#" = false →
        pyStrip l ∈ load_proxies (some lines)) := by
  constructor
  · intro e he
    obtain ⟨l, hl, hstrip⟩ := List.mem_map.mp he
    obtain ⟨hmem, hpred⟩ := List.mem_filter.mp hl
    rw [Bool.and_eq_true, decide_eq_true_eq, Bool.not_eq_true'] at hpred
    exact ⟨hstrip ▸ hpred.1, l, hmem, hstrip, hpred.2⟩
  · intro l hl hne hhash
    refine List.mem_map.mpr ⟨l, List.mem_filter.mpr ⟨hl, ?_⟩, rfl⟩
    rw [Bool.and_eq_true, decide_eq_true_eq, Bool.not_eq_true']
    exact ⟨hne, hhash⟩

/-- C7 witness: on the file with lines `["a:1", "", "# c"]` the entry
`a:1` is characterised and returned. -/
theorem c7_amended_load_characterisation_witness :
    ("a:1" ≠ "" ∧ ∃ l ∈ (["a:1", "", "# c"] : List String),
        pyStrip l = "a:1" ∧ pyStartswith l "#" = false) ∧
      pyStrip "a:1" ∈ load_proxies (some ["a:1", "", "# c"]) :=
  ⟨(c7_amended_load_characterisation ["a:1", "", "# c"]).1 "a:1" (by decide),
    (c7_amended_load_characterisation ["a:1", "", "# c"]).2 "a:1"
      (by decide) (by decide) (by decide)⟩

/-! ### Claim C10 -/

/-- C10: if the proxy file does not exist, `load_proxies` returns the empty
list (the `exists()` guard returns before any read, so nothing is raised),
and `test_all_proxies` then returns via the `if not proxies: return` branch
without creating or modifying any file. -/
theorem c10_missing_file :
    load_proxies none = [] ∧
      ∀ (c : String → Bool) (ord : List String), test_all_proxies c ord none = none :=
  ⟨rfl, fun _ _ => rfl⟩

/-! ### Claim C2 -/

/-- When every XPath of a field matches nothing, the field loop leaves the
value at `np.nan`. -/
theorem extractField_none (page : Page) (key : String) :
    ∀ (xps : List String), (∀ xp ∈ xps, page xp = []) →
      extractField page key xps = none
  | [], _ => rfl
  | xp :: rest, h => by
    have hx : page xp = [] := h xp (List.mem_cons_self xp rest)
    simp only [extractField, hx]
    exact extractField_none page key rest (fun y hy => h y (List.mem_cons_of_mem xp hy))

/-- C2: for every call of `scrape_product_data`, (i) if the product page
has every field present — each scraped field yields a non-empty value
(`src` for `Image`, `€`-prefixed stripped text for `Price`, stripped inner
text otherwise) — and the visited URL is non-empty, then the appended row
has a non-empty value in every column; (ii) if a field is missing — none
of its XPaths matches — its cell is absent (`np.nan`).  The extraction is
a total function (every failure path yields a value), which is the
shallow-embedding form of "no exception escapes the row-extraction step";
the per-field `except` itself is modelled by `fieldValueSafe`. -/
theorem c2_row_extraction (page : Page) (url : String) :
    ((url ≠ "" ∧ ∀ kv ∈ fields, (extractField page kv.1 kv.2).getD "" ≠ "") →
        ∀ cell ∈ scrapeRow page url, cell.getD "" ≠ "") ∧
      (∀ kv ∈ fields, (∀ xp ∈ kv.2, page xp = []) → rowCell page url kv.1 = none) := by
  constructor
  · rintro ⟨hurl, hall⟩ cell hcell
    obtain ⟨col, hcol, hval⟩ := List.mem_map.mp hcell
    rw [← hval]
    simp only [CSV_COLUMNS, List.mem_cons, List.not_mem_nil, or_false] at hcol
    rcases hcol with rfl | rfl | rfl | rfl | rfl | rfl | rfl | rfl | rfl | rfl
    · exact hall ("Image", ["//*[@id=\"landingImage\"]"]) (by decide)
    · exact hall ("Title", ["//*[@id=\"productTitle\"]"]) (by decide)
    · exact hall ("Avg Review", ["//*[@id=\"acrPopover\"]/span/a/span"]) (by decide)
    · exact hall ("Review Count", ["//*[@id=\"acrCustomerReviewText\"]"]) (by decide)
    · exact hall ("Has Prime", ["//*[@id=\"abb-message\"]"]) (by decide)
    · exact hall ("Price",
        ["//*[@id=\"corePriceDisplay_desktop_feature_div\"]/div[1]/span[2]",
         "//*[@id=\"corePriceDisplay_desktop_feature_div\"]/div[1]/span[3]/span[2]"])
        (by decide)
    · exact hall ("Delivery",
        ["//*[@id=\"mir-layout-DELIVERY_BLOCK-slot-PRIMARY_DELIVERY_MESSAGE_LARGE\"]/span"])
        (by decide)
    · exact hall ("Availability", ["//*[@id=\"availability\"]"]) (by decide)
    · exact hall ("Specifications", ["//*[@id=\"productDetails_feature_div\"]"]) (by decide)
    · exact hurl
  · intro kv hkv hempty
    simp only [fields, List.mem_cons, List.not_mem_nil, or_false] at hkv
    rcases hkv with rfl | rfl | rfl | rfl | rfl | rfl | rfl | rfl | rfl <;>
      exact extractField_none page _ _ hempty

/-- C2 witness: on a fully-populated concrete page every cell of the row
is non-empty; on a page where nothing matches, the `Title` cell is absent. -/
theorem c2_row_extraction_witness :
    (∀ cell ∈ scrapeRow pageFull "https://www.amazon.nl/dp/B0TEST", cell.getD "" ≠ "") ∧
      rowCell pageBlank "https://www.amazon.nl/dp/B0TEST" "Title" = none :=
  ⟨(c2_row_extraction pageFull "https://www.amazon.nl/dp/B0TEST").1 ⟨by decide, by decide⟩,
    (c2_row_extraction pageBlank "https://www.amazon.nl/dp/B0TEST").2
      ("Title", ["//*[@id=\"productTitle\"]"]) (by decide) (by decide)⟩

/-! ### Claim C4 -/

/-- C4: the product output file has the fixed ten-name column header, and
every `scrape_product_data` call appends exactly one row under that header
(the header itself is written only at creation and never re-appended). -/
theorem c4_header_and_single_append :
    CSV_COLUMNS = ["Image", "Title", "Avg Review", "Review Count", "Has Prime",
        "Price", "Delivery", "Availability", "Specifications", "URL"] ∧
      (ensure_csv none).header = CSV_COLUMNS ∧
      ∀ (f : CsvFile) (page : Page) (url : String),
        (scrape_product_data page url f).rows = f.rows ++ [scrapeRow page url] ∧
        (scrape_product_data page url f).header = f.header ∧
        (scrape_product_data page url f).rows.length = f.rows.length + 1 :=
  ⟨rfl, rfl, fun f page url => ⟨rfl, rfl, by simp [scrape_product_data]⟩⟩

/-! ### Claim C5 -/

/-- C5: every failing browser operation is either downgraded on the spot —
`test_proxy`'s catch-all turns any failure into "remove the proxy and
return `None`", and the per-field catch-all of `scrape_product_data` turns
any failure into an absent cell — or propagates, never retried (each proxy
is processed once in `runOutcomes`, each field tried once per XPath), to
the top-level `try`/`except` of the script, which absorbs it. -/
theorem c5_failures_downgraded :
    (∀ (o : Except String Unit) (p : String) (lines : List String) (msg : String),
        o = Except.error msg →
        test_proxy_exc o p lines = (none, update_file_remove_proxy p lines)) ∧
      (∀ (page : PageE) (key : String) (xps : List String) (msg : String),
        extractFieldE page key xps = Except.error msg →
        fieldValueSafe page key xps = none) ∧
      ∀ (body : Except String Unit), main_top body = Except.ok () := by
  refine ⟨?_, ?_, ?_⟩
  · rintro o p lines msg rfl
    rfl
  · intro page key xps msg h
    unfold fieldValueSafe
    rw [h]
  · intro body
    cases body <;> rfl

/-- C5 witness: a timed-out proxy test is downgraded to a removal, a
raising locator is downgraded to an absent cell, and a failure reaching
the top level is absorbed there. -/
theorem c5_failures_downgraded_witness :
    test_proxy_exc (Except.error "timeout") "a:1" ["a:1"]
        = (none, update_file_remove_proxy "a:1" ["a:1"]) ∧
      fieldValueSafe pageErr "Title" ["//*[@id=\"productTitle\"]"] = none ∧
      main_top (Except.error "crash") = Except.ok () :=
  ⟨c5_failures_downgraded.1 (Except.error "timeout") "a:1" ["a:1"] "timeout" rfl,
    c5_failures_downgraded.2.1 pageErr "Title" ["//*[@id=\"productTitle\"]"] "timeout" rfl,
    c5_failures_downgraded.2.2 (Except.error "crash")⟩

/-! ### Claims C8 and C9: invariants of the interleaving model -/

theorem get_set_general (l : List PC) (i j : Nat) (v : PC) (hj : j < (l.set i v).length)
    (hj2 : j < l.length) :
    (l.set i v).get ⟨j, hj⟩ = if i = j then v else l.get ⟨j, hj2⟩ := by
  simp [List.getElem_set]

theorem countP_set_aux (p : PC → Bool) :
    ∀ (l : List PC) (i : Nat) (v : PC) (h : i < l.length),
      (l.set i v).countP p + (if p (l.get ⟨i, h⟩) then 1 else 0)
        = l.countP p + (if p v then 1 else 0)
  | a :: l, 0, v, _ => by
    cases hpv : p v <;> cases hpa : p a <;>
      simp [List.countP_cons, hpv, hpa]
  | a :: l, i + 1, v, h => by
    have ih := countP_set_aux p l i v (Nat.lt_of_succ_lt_succ h)
    simp only [List.set, List.countP_cons, List.get]
    omega

theorem countP_replicate_start (n : Nat) :
    (List.replicate n PC.start).countP holdsSem = 0 := by
  induction n with
  | zero => rfl
  | succ n ih => simp [List.replicate, List.countP_cons, ih, holdsSem]

/-- The two safety invariants of a `test_all_proxies` run: a coroutine
inside its read-modify-write cycle on the proxy file owns the lock, and
the semaphore counter plus the number of in-flight proxy tests always
equals `max_concurrent`. -/
theorem reach_inv (proxies : List String) (outcome : Nat → Bool)
    (f0 : List String) (n maxConc : Nat) (s : TState)
    (hr : Reach proxies outcome f0 n maxConc s) :
    (∀ (i : Nat) (h : i < s.pcs.length),
        inCrit (s.pcs.get ⟨i, h⟩) = true → s.lock = some i) ∧
      s.sem + s.pcs.countP holdsSem = maxConc := by
  induction hr with
  | base =>
    constructor
    · intro i h hcrit
      simp [initState, List.get_eq_getElem, List.getElem_replicate, inCrit] at hcrit
    · simp [initState, countP_replicate_start]
  | @step s t h1 h2 ih =>
    obtain ⟨ihL, ihS⟩ := ih
    cases h2 with
    | acqSem i h hpc hsem =>
      refine ⟨?_, ?_⟩
      · intro j hj hcrit
        have hj2 : j < s.pcs.length := by simpa using hj
        rw [get_set_general s.pcs i j _ hj hj2] at hcrit
        by_cases hij : i = j
        · rw [if_pos hij] at hcrit
          simp [inCrit] at hcrit
        · rw [if_neg hij] at hcrit
          exact ihL j hj2 hcrit
      · have hcnt := countP_set_aux holdsSem s.pcs i PC.testing h
        rw [hpc] at hcnt
        simp [holdsSem] at hcnt
        show s.sem - 1 + (s.pcs.set i PC.testing).countP holdsSem = maxConc
        omega
    | finishTest i h hpc =>
      refine ⟨?_, ?_⟩
      · intro j hj hcrit
        have hj2 : j < s.pcs.length := by simpa using hj
        rw [get_set_general s.pcs i j _ hj hj2] at hcrit
        by_cases hij : i = j
        · rw [if_pos hij] at hcrit
          simp [inCrit] at hcrit
        · rw [if_neg hij] at hcrit
          exact ihL j hj2 hcrit
      · have hcnt := countP_set_aux holdsSem s.pcs i PC.acquiring h
        rw [hpc] at hcnt
        simp [holdsSem] at hcnt
        show s.sem + (s.pcs.set i PC.acquiring).countP holdsSem = maxConc
        omega
    | acqLock i h hpc hlock =>
      refine ⟨?_, ?_⟩
      · intro j hj hcrit
        have hj2 : j < s.pcs.length := by simpa using hj
        rw [get_set_general s.pcs i j _ hj hj2] at hcrit
        by_cases hij : i = j
        · show some i = some j
          rw [hij]
        · rw [if_neg hij] at hcrit
          have := ihL j hj2 hcrit
          rw [hlock] at this
          exact absurd this (by simp)
      · have hcnt := countP_set_aux holdsSem s.pcs i PC.reading h
        rw [hpc] at hcnt
        simp [holdsSem] at hcnt
        show s.sem + (s.pcs.set i PC.reading).countP holdsSem = maxConc
        omega
    | readFile i h hpc =>
      refine ⟨?_, ?_⟩
      · intro j hj hcrit
        have hj2 : j < s.pcs.length := by simpa using hj
        rw [get_set_general s.pcs i j _ hj hj2] at hcrit
        by_cases hij : i = j
        · subst hij
          exact ihL i h (by rw [hpc]; rfl)
        · rw [if_neg hij] at hcrit
          exact ihL j hj2 hcrit
      · have hcnt := countP_set_aux holdsSem s.pcs i PC.writing h
        rw [hpc] at hcnt
        simp [holdsSem] at hcnt
        show s.sem + (s.pcs.set i PC.writing).countP holdsSem = maxConc
        omega
    | writeFile i h hpc =>
      refine ⟨?_, ?_⟩
      · intro j hj hcrit
        have hj2 : j < s.pcs.length := by simpa using hj
        rw [get_set_general s.pcs i j _ hj hj2] at hcrit
        by_cases hij : i = j
        · subst hij
          exact ihL i h (by rw [hpc]; rfl)
        · rw [if_neg hij] at hcrit
          exact ihL j hj2 hcrit
      · have hcnt := countP_set_aux holdsSem s.pcs i PC.releasing h
        rw [hpc] at hcnt
        simp [holdsSem] at hcnt
        show s.sem + (s.pcs.set i PC.releasing).countP holdsSem = maxConc
        omega
    | updateError i h hpc =>
      refine ⟨?_, ?_⟩
      · intro j hj hcrit
        have hj2 : j < s.pcs.length := by simpa using hj
        rw [get_set_general s.pcs i j _ hj hj2] at hcrit
        by_cases hij : i = j
        · subst hij
          rcases hpc with hpc | hpc
          · exact ihL i h (by rw [hpc]; rfl)
          · exact ihL i h (by rw [hpc]; rfl)
        · rw [if_neg hij] at hcrit
          exact ihL j hj2 hcrit
      · have hcnt := countP_set_aux holdsSem s.pcs i PC.releasing h
        rcases hpc with hpc | hpc <;> rw [hpc] at hcnt <;>
          simp [holdsSem] at hcnt <;>
          · show s.sem + (s.pcs.set i PC.releasing).countP holdsSem = maxConc
            omega
    | relLock i h hpc =>
      refine ⟨?_, ?_⟩
      · intro j hj hcrit
        have hj2 : j < s.pcs.length := by simpa using hj
        rw [get_set_general s.pcs i j _ hj hj2] at hcrit
        by_cases hij : i = j
        · rw [if_pos hij] at hcrit
          simp [inCrit] at hcrit
        · rw [if_neg hij] at hcrit
          have hja := ihL j hj2 hcrit
          have hia := ihL i h (by rw [hpc]; rfl)
          rw [hia] at hja
          exact absurd (Option.some.inj hja) hij
      · have hcnt := countP_set_aux holdsSem s.pcs i PC.exiting h
        rw [hpc] at hcnt
        simp [holdsSem] at hcnt
        show s.sem + (s.pcs.set i PC.exiting).countP holdsSem = maxConc
        omega
    | relSem i h hpc =>
      refine ⟨?_, ?_⟩
      · intro j hj hcrit
        have hj2 : j < s.pcs.length := by simpa using hj
        rw [get_set_general s.pcs i j _ hj hj2] at hcrit
        by_cases hij : i = j
        · rw [if_pos hij] at hcrit
          simp [inCrit] at hcrit
        · rw [if_neg hij] at hcrit
          exact ihL j hj2 hcrit
      · have hcnt := countP_set_aux holdsSem s.pcs i PC.done h
        rw [hpc] at hcnt
        simp [holdsSem] at hcnt
        show s.sem + 1 + (s.pcs.set i PC.done).countP holdsSem = maxConc
        omega

/-- C8: in every interleaving of the concurrent `test_proxy` coroutines,
a coroutine that is reading the proxy file, computing its new lines, or
writing them back (`inCrit`) holds the single mutual-exclusion lock, and
hence no two read-modify-write cycles on the file ever overlap. -/
theorem c8_lock_guards_file_cycles (proxies : List String) (outcome : Nat → Bool)
    (f0 : List String) (n maxConc : Nat) (s : TState)
    (hr : Reach proxies outcome f0 n maxConc s) :
    (∀ (i : Nat) (h : i < s.pcs.length),
        inCrit (s.pcs.get ⟨i, h⟩) = true → s.lock = some i) ∧
      ∀ (i j : Nat) (hi : i < s.pcs.length) (hj : j < s.pcs.length),
        inCrit (s.pcs.get ⟨i, hi⟩) = true → inCrit (s.pcs.get ⟨j, hj⟩) = true → i = j := by
  have h := reach_inv proxies outcome f0 n maxConc s hr
  refine ⟨h.1, fun i j hi hj hci hcj => ?_⟩
  have h1 := h.1 i hi hci
  have h2 := h.1 j hj hcj
  rw [h1] at h2
  exact Option.some.inj h2

/-- C8 witness: the initial state of a two-proxy run is reachable and
satisfies both conclusions. -/
theorem c8_lock_guards_file_cycles_witness :
    (∀ (i : Nat) (h : i < (initState ["a:1", "b:2"] 2 10).pcs.length),
        inCrit ((initState ["a:1", "b:2"] 2 10).pcs.get ⟨i, h⟩) = true →
          (initState ["a:1", "b:2"] 2 10).lock = some i) ∧
      ∀ (i j : Nat) (hi : i < (initState ["a:1", "b:2"] 2 10).pcs.length)
        (hj : j < (initState ["a:1", "b:2"] 2 10).pcs.length),
        inCrit ((initState ["a:1", "b:2"] 2 10).pcs.get ⟨i, hi⟩) = true →
        inCrit ((initState ["a:1", "b:2"] 2 10).pcs.get ⟨j, hj⟩) = true → i = j :=
  c8_lock_guards_file_cycles ["a:1", "b:2"] (fun _ => true) ["a:1", "b:2"] 2 10 _
    Reach.base

/-- C9: at every moment of a `test_all_proxies` run, the number of proxy
tests in flight (coroutines holding a semaphore slot, hence browser
launches) is at most `max_concurrent`, because the semaphore counter plus
the number of slot holders is always exactly `max_concurrent`.  The model
places no constraint on the order in which the coroutines finish: the
`asyncio.gather` join collects results in unspecified completion order. -/
theorem c9_semaphore_bound (proxies : List String) (outcome : Nat → Bool)
    (f0 : List String) (n maxConc : Nat) (s : TState)
    (hr : Reach proxies outcome f0 n maxConc s) :
    s.pcs.countP holdsSem ≤ maxConc ∧
      s.sem + s.pcs.countP holdsSem = maxConc := by
  have h := (reach_inv proxies outcome f0 n maxConc s hr).2
  exact ⟨by omega, h⟩

/-- C9 witness: the initial state of a three-proxy run with
`max_concurrent = 2` is reachable and satisfies the bound. -/
theorem c9_semaphore_bound_witness :
    (initState ["a:1", "b:2", "c:3"] 3 2).pcs.countP holdsSem ≤ 2 ∧
      (initState ["a:1", "b:2", "c:3"] 3 2).sem
        + (initState ["a:1", "b:2", "c:3"] 3 2).pcs.countP holdsSem = 2 :=
  c9_semaphore_bound ["a:1", "b:2", "c:3"] (fun _ => false) ["a:1", "b:2", "c:3"] 3 2 _
    Reach.base
